import Mathlib

/-!
Shallow embedding of the TscanCode orchestration core
(src/trunk/lib/tscancode.h).  The repository ships only the class
declaration; every method body of the configuration-analysis pipeline
(checkFile, processFile, analyzeFile_internal, findError, replaceAll,
reportErr, analyseWholeProgram, SyncErrorList, ...) is absent from src/,
so those operations are modelled from the specification (spec.md), with
the source header fixing the names, signatures and the few inline bodies
(terminate, dontSimplify).  Machine state is passed explicitly; fallible
collaborators return Option.
-/

/-- Modelled from the spec: the diagnostic taxonomy of section 7
(RuleViolation / InternalError / ConfigurationOverflow /
ConfigurationPurged plus the info and progress channels); the concrete
severity enumeration is absent from src/. -/
inductive Severity where
  | violation
  | internalErr
  | overflow
  | purged
  | info
  | progress
deriving DecidableEq, Repr

/-- Modelled from the spec: an ErrorRecord of the data model (section 3,
severity plus message); the concrete record layout is absent from src/. -/
structure ErrorRecord where
  severity : Severity
  message : String
deriving DecidableEq, Repr

/-- Is the record a RuleViolation diagnostic. -/
def isViolation (r : ErrorRecord) : Bool :=
  r.severity == Severity.violation

/-- Is the record a ConfigurationOverflow diagnostic. -/
def isOverflow (r : ErrorRecord) : Bool :=
  r.severity == Severity.overflow

/-- Modelled from the spec: a FileInfo artifact, keyed by plugin identity
and file (section 3); Check::FileInfo is opaque and its body is absent
from src/. -/
structure FileInfo where
  pluginId : String
  file : String
  payload : Nat
deriving DecidableEq, Repr

/-- Modelled from the spec: the outcome of one plugin capability call:
either diagnostics (messages that become RuleViolation records) or a
crash signal caught at the Fault Isolator boundary (sections 4.3, 6). -/
inductive PluginOutcome where
  | ok (msgs : List String)
  | crash (msg : String)

/-- Did the plugin invocation crash. -/
def PluginOutcome.isCrash : PluginOutcome → Bool
  | .ok _ => false
  | .crash _ => true

/-- Modelled from the spec: the check-plugin capability set
run / analyzeRun / produceFileInfo / wholeProgramPass (section 6); the
Check class bodies are absent from src/. -/
structure Plugin where
  id : String
  run : List String → PluginOutcome
  analyzeRun : List String → PluginOutcome
  produceFileInfo : String → Option FileInfo
  wholeProgramPass : List FileInfo → List String

/-- Modelled from the spec: the settings the core consults (the ceiling,
the simplify switch set through dontSimplify, and the reducer budget);
the Settings class body is absent from src/. -/
structure Settings where
  maxConfigs : Nat
  simplify : Bool
  reduceEnabled : Bool
  reduceSteps : Nat

/-- Modelled from the spec: one preprocessor configuration (section 3):
identifier, resolvability, fully expanded text. -/
structure Configuration where
  id : String
  resolved : Bool
  expandedText : String
deriving DecidableEq, Repr

/-- Modelled from the spec: the collaborators one analysis call consumes
(preprocessor expand, tokenizer with its simplified variant, the
executeRules pattern pass, the large-header metric) together with the
file name and the settings. -/
structure Ctx where
  file : String
  plugins : List Plugin
  expand : String → List Configuration
  tokenize : String → Option (List String)
  simplifyTokens : List String → List String
  rules : List String → List String
  noteHeaders : String → List String
  settings : Settings

/-- Modelled from the spec: the engine state visible to the core: the
process-wide _errorList, the AnalysisUnit bookkeeping (checksum set,
configuration counter, tooManyConfigs, internalErrorFound, per-call error
count), the FileInfo collection, the large-header set, the cancellation
flag held by _settings, and observational counters for tokenizations,
plugin invocations, and whole-program passes. -/
structure St where
  errorList : List ErrorRecord
  checksums : List Nat
  configCount : Nat
  tooManyConfigs : Bool
  internalErrorFound : Bool
  errorCount : Nat
  tokenizations : Nat
  pluginInvocations : Nat
  terminated : Bool
  fileInfo : List FileInfo
  largeHeaderSet : List String
  wholeProgramRuns : Nat
deriving DecidableEq, Repr

/-- The configuration/dedup/ceiling bookkeeping of one AnalysisUnit,
projected out of the full state. -/
structure ProjSt where
  checksums : List Nat
  configCount : Nat
  tooManyConfigs : Bool
  terminated : Bool
deriving DecidableEq, Repr

/-- Project the dedup/ceiling bookkeeping out of the engine state. -/
def projCfg (st : St) : ProjSt :=
  ⟨st.checksums, st.configCount, st.tooManyConfigs, st.terminated⟩

/-- Modelled from the spec: the content hash over the fully expanded
configuration text (section 4.2); the hash routine is absent from src/. -/
def checksum (s : String) : Nat :=
  s.data.foldl (fun h c => (h * 131 + c.toNat) % 1000000007) 5381

/-- Modelled from the spec: reportErr appends one record to the
process-lifetime ordered _errorList (section 4.5); the body is absent
from src/. -/
def reportErr (st : St) (r : ErrorRecord) : St :=
  { st with errorList := st.errorList ++ [r] }

/-- Append one RuleViolation record and count it toward the per-call
error tally. -/
def emitViolation (st : St) (msg : String) : St :=
  { st with
      errorList := st.errorList ++ [⟨Severity.violation, msg⟩]
      errorCount := st.errorCount + 1 }

/-- Append a batch of RuleViolation records in emission order. -/
def emitViolations (st : St) (msgs : List String) : St :=
  msgs.foldl emitViolation st

/-- Modelled from the spec: internalError surfaces an InternalError
record for the file and marks internalErrorFound (section 4.3); the body
is absent from src/. -/
def internalError (st : St) (filename msg : String) : St :=
  { reportErr st ⟨Severity.internalErr, "Internal error: " ++ filename ++ ": " ++ msg⟩
      with internalErrorFound := true }

/-- Does the second character list occur at the head of the first. -/
def listStartsWith : List Char → List Char → Bool
  | _, [] => true
  | [], _ :: _ => false
  | a :: as, b :: bs => a == b && listStartsWith as bs

/-- Fuel-bounded replacement of every occurrence of one character list
by another. -/
def replaceAllAux (f t : List Char) : Nat → List Char → List Char
  | 0, s => s
  | _ + 1, [] => []
  | n + 1, c :: cs =>
      if !f.isEmpty && listStartsWith (c :: cs) f then
        t ++ replaceAllAux f t n ((c :: cs).drop f.length)
      else
        c :: replaceAllAux f t n cs

/-- Modelled from the spec: replaceAll replaces every occurrence of one
string by another inside the code (the static helper declared in the
header); the body is absent from src/. -/
def replaceAll (code f t : String) : String :=
  ⟨replaceAllAux f.data t.data code.data.length code.data⟩

/-- Modelled from the spec: the candidate spans of one shrink step of the
delta-debugging minimizer (section 4.4: halving plus neutralizing
replacements); the exact partition strategy is an open implementation
choice per section 9. -/
def shrinkCandidates (code : String) : List String :=
  [ ⟨code.data.take (code.length / 2)⟩
  , ⟨code.data.drop (code.length / 2)⟩
  , ⟨code.data.take (code.length - code.length / 4)⟩
  , replaceAll code ";;" ";"
  , replaceAll code "  " " " ]

/-- One scripted reduction step: the first candidate that is strictly
smaller and still reproduces the failure, if any. -/
def reduceStep (repro : String → Bool) (code : String) : Option String :=
  (shrinkCandidates code).find? fun c => decide (c.length < code.length) && repro c

/-- Modelled from the spec: the bounded shrink-and-retest loop of the
Failure Reducer (section 4.4); findError's body is absent from src/. -/
def reduce (budget : Nat) (repro : String → Bool) (code : String) : String :=
  match budget with
  | 0 => code
  | b + 1 =>
      match reduceStep repro code with
      | none => code
      | some c => reduce b repro c

/-- Modelled from the spec: the reproduce check re-runs the same
plugin/token pipeline on a candidate and reports whether the same class
of internal failure still occurs (section 4.4). -/
def pluginReproduces (ctx : Ctx) (p : Plugin) (cand : String) : Bool :=
  match ctx.tokenize cand with
  | none => false
  | some toks => (p.run toks).isCrash

/-- Modelled from the spec: findError reports whether the code
reproduces a failure and, using the reducer, a shrunk reproducer to
accompany the InternalError diagnostic; the body is absent from src/. -/
def findError (ctx : Ctx) (p : Plugin) (code : String) : Bool × String :=
  if pluginReproduces ctx p code then
    (true, reduce ctx.settings.reduceSteps (pluginReproduces ctx p) code)
  else
    (false, code)

/-- Idempotent set insertion for the large-header set. -/
def insertHeader (s : List String) (h : String) : List String :=
  if h ∈ s then s else h :: s

/-- Insert a batch of header identities into the large-header set. -/
def insertHeaders (s : List String) (hs : List String) : List String :=
  hs.foldl insertHeader s

/-- Modelled from the spec: after the plugins ran for a file, each may
hand one FileInfo artifact to the engine collection (sections 3, 4.6). -/
def addFileInfos (ctx : Ctx) (st : St) : St :=
  { st with fileInfo := st.fileInfo ++ ctx.plugins.filterMap (fun p => p.produceFileInfo ctx.file) }

/-- Modelled from the spec: the Fault Isolator around one plugin
invocation (section 4.3): consult cancellation first; on a normal result
append its RuleViolation diagnostics; on a crash convert it to an
InternalError record (with the reducer invoked on the exact expanded
text when enabled) and set internalErrorFound. -/
def runPluginIso (ctx : Ctx) (code : String) (toks : List String) (st : St) (p : Plugin) : St :=
  if st.terminated then st
  else
    let st1 := { st with pluginInvocations := st.pluginInvocations + 1 }
    match p.run toks with
    | .ok msgs => emitViolations st1 msgs
    | .crash msg =>
        let reduced :=
          if ctx.settings.reduceEnabled then
            reduce ctx.settings.reduceSteps (pluginReproduces ctx p) code
          else code
        internalError st1 ctx.file (msg ++ " [" ++ reduced ++ "]")

/-- Modelled from the spec: executeRules, the pattern/rule pass
independent of plugin objects, run once per token-list kind (section
4.1, step 4); the body is absent from src/. -/
def executeRules (ctx : Ctx) (toks : List String) (st : St) : St :=
  emitViolations st (ctx.rules toks)

/-- One full pass over a token list: every plugin through the Fault
Isolator, then executeRules. -/
def tokenPass (ctx : Ctx) (code : String) (toks : List String) (st : St) : St :=
  executeRules ctx toks (ctx.plugins.foldl (fun s p => runPluginIso ctx code toks s p) st)

/-- Modelled from the spec: checkFile (declared in the header, body
absent from src/): compute the checksum of the expanded code; if already
recorded return false with no tokenization and no plugin invocation;
else record it, tokenize (a tokenizer failure is caught and reported as
an InternalError), run the plugin suite and executeRules on the normal
and, when simplification is on, the simplified token list, collect
FileInfo artifacts and large-header notes, and return true. -/
def checkFile (ctx : Ctx) (code : String) (st : St) : Bool × St :=
  let cs := checksum code
  if cs ∈ st.checksums then (false, st)
  else
    let st1 := { st with checksums := cs :: st.checksums }
    match ctx.tokenize code with
    | none => (true, internalError { st1 with tokenizations := st1.tokenizations + 1 } ctx.file "tokenize failed")
    | some toks =>
        let st2 := { st1 with
                      tokenizations := st1.tokenizations + 1
                      largeHeaderSet := insertHeaders st1.largeHeaderSet (ctx.noteHeaders code) }
        let st3 := tokenPass ctx code toks st2
        let st4 := if ctx.settings.simplify then tokenPass ctx code (ctx.simplifyTokens toks) st3 else st3
        (true, addFileInfos ctx st4)

/-- Modelled from the spec: the lighter-weight fault-isolated plugin
invocation used by the analyze variants (section 4.1): same boundary,
distinct hook, no reducer. -/
def runPluginIsoA (ctx : Ctx) (toks : List String) (st : St) (p : Plugin) : St :=
  if st.terminated then st
  else
    let st1 := { st with pluginInvocations := st.pluginInvocations + 1 }
    match p.analyzeRun toks with
    | .ok msgs => emitViolations st1 msgs
    | .crash msg => internalError st1 ctx.file msg

/-- Modelled from the spec: analyzeFile_internal (declared in the
header, body absent from src/): identical dedup contract to checkFile
but invoking the lighter analyze hook of each plugin. -/
def analyzeFile_internal (ctx : Ctx) (code : String) (st : St) : Bool × St :=
  let cs := checksum code
  if cs ∈ st.checksums then (false, st)
  else
    let st1 := { st with checksums := cs :: st.checksums }
    match ctx.tokenize code with
    | none => (true, internalError { st1 with tokenizations := st1.tokenizations + 1 } ctx.file "tokenize failed")
    | some toks =>
        let st2 := { st1 with tokenizations := st1.tokenizations + 1 }
        (true, ctx.plugins.foldl (fun s p => runPluginIsoA ctx toks s p) st2)

/-- Modelled from the spec: tooManyConfigsError emits the single
ConfigurationOverflow diagnostic for the file (section 4.1); the body is
absent from src/.  It sets the tooManyConfigs flag together with the
diagnostic. -/
def tooManyConfigsError (file : String) (numberOfConfigurations : Nat) (st : St) : St :=
  { reportErr st ⟨Severity.overflow, "Too many #ifdef configurations in " ++ file ++ " (" ++ toString numberOfConfigurations ++ " checked)"⟩
      with tooManyConfigs := true }

/-- Modelled from the spec: purgedConfigurationMessage emits the single
informational ConfigurationPurged diagnostic for one dropped
configuration (section 4.1); the body is absent from src/. -/
def purgedConfigurationMessage (file config : String) (st : St) : St :=
  reportErr st ⟨Severity.purged, "The configuration " ++ config ++ " was not checked in " ++ file⟩

/-- Modelled from the spec: one Driver iteration (section 4.1),
parameterized by the per-configuration processing step: consult
cancellation, skip without cost when tooManyConfigs is set, drop
unresolvable configurations with one purged message, skip duplicate
checksums, apply the ceiling policy, otherwise count the configuration
and process it. -/
def driveConfigWith (ctx : Ctx) (process : String → St → St) (st : St) (cfg : Configuration) : St :=
  if st.terminated then st
  else if st.tooManyConfigs then st
  else if !cfg.resolved then purgedConfigurationMessage ctx.file cfg.id st
  else if checksum cfg.expandedText ∈ st.checksums then st
  else if ctx.settings.maxConfigs ≤ st.configCount then
    tooManyConfigsError ctx.file st.configCount st
  else
    process cfg.expandedText { st with configCount := st.configCount + 1 }

/-- The Driver iteration of the check pipeline. -/
def driveConfig (ctx : Ctx) (st : St) (cfg : Configuration) : St :=
  driveConfigWith ctx (fun code s => (checkFile ctx code s).2) st cfg

/-- The Driver iteration of the analyze pipeline. -/
def driveConfigA (ctx : Ctx) (st : St) (cfg : Configuration) : St :=
  driveConfigWith ctx (fun code s => (analyzeFile_internal ctx code s).2) st cfg

/-- The mirror of one Driver iteration on the dedup/ceiling projection
alone. -/
def driveProjStep (maxC : Nat) (pr : ProjSt) (cfg : Configuration) : ProjSt :=
  if pr.terminated then pr
  else if pr.tooManyConfigs then pr
  else if !cfg.resolved then pr
  else if checksum cfg.expandedText ∈ pr.checksums then pr
  else if maxC ≤ pr.configCount then { pr with tooManyConfigs := true }
  else
    { pr with
        configCount := pr.configCount + 1
        checksums := checksum cfg.expandedText :: pr.checksums }

/-- Modelled from the spec: a fresh AnalysisUnit is created at the start
of each check/analyze entry point (section 3): empty checksum set, zeroed
configuration counter and per-call error count, cleared tooManyConfigs
and internalErrorFound. -/
def newUnit (st : St) : St :=
  { st with
      checksums := []
      configCount := 0
      tooManyConfigs := false
      internalErrorFound := false
      errorCount := 0 }

/-- From the source header: terminate() sets the shared cancellation
flag inside _settings and nothing else; the flag itself is modelled from
the spec (section 2, Cancellation Controller) since settings.h is absent
from src/. -/
def terminate (st : St) : St :=
  { st with terminated := true }

/-- Modelled from the spec: processFile drives every configuration
discovered in the content through the Driver and returns the per-call
error count (section 4.1); the body is absent from src/. -/
def processFile (ctx : Ctx) (content : String) (st : St) : Nat × St :=
  let st1 := (ctx.expand content).foldl (driveConfig ctx) st
  (st1.errorCount, st1)

/-- Modelled from the spec: check creates the AnalysisUnit and hands the
content to processFile, returning the number of errors found in this
call (the header's check entry points; bodies absent from src/). -/
def check (ctx : Ctx) (content : String) (st : St) : Nat × St :=
  processFile ctx content (newUnit st)

/-- Modelled from the spec: analyzeFile drives every configuration
through the analyze Driver and returns 0 exactly when no internal error
was caught (the header's analyzeFile; body absent from src/). -/
def analyzeFile (ctx : Ctx) (content : String) (st : St) : Nat × St :=
  let st1 := (ctx.expand content).foldl (driveConfigA ctx) st
  (if st1.internalErrorFound then 1 else 0, st1)

/-- Modelled from the spec: analyze creates the AnalysisUnit and hands
the content to analyzeFile, returning a status code (the header's
analyze entry points; bodies absent from src/). -/
def analyze (ctx : Ctx) (content : String) (st : St) : Nat × St :=
  analyzeFile ctx content (newUnit st)

/-- Modelled from the spec: SyncErrorList drains the accumulated ordered
diagnostic sequence to the caller and clears it (section 4.5 drain; body
absent from src/). -/
def SyncErrorList (st : St) : List ErrorRecord × St :=
  (st.errorList, { st with errorList := [] })

/-- Modelled from the spec: the Whole-Program Aggregator (section 4.6):
one pass handing every plugin its own FileInfo artifacts across all
files (gated off by configuration), after which all FileInfo artifacts
are released unconditionally; analyseWholeProgram's body is absent from
src/. -/
def analyseWholeProgram (plugins : List Plugin) (enabled : Bool) (st : St) : St :=
  let diags :=
    if enabled then
      plugins.foldl
        (fun acc p =>
          acc ++ (p.wholeProgramPass (st.fileInfo.filter (fun fi => fi.pluginId == p.id))).map
            (fun m => ErrorRecord.mk Severity.violation m))
        []
    else []
  { st with
      errorList := st.errorList ++ diags
      fileInfo := []
      wholeProgramRuns := st.wholeProgramRuns + 1 }

/-- The per-file Driver pass over a whole batch of files. -/
def perFilePass (jobs : List (Ctx × String)) (st : St) : St :=
  jobs.foldl (fun s j => (check j.1 j.2 s).2) st

/-- Modelled from the spec: a whole batch: every file through the
Driver, then the Whole-Program Aggregator exactly once (section 5
barrier). -/
def runBatch (jobs : List (Ctx × String)) (plugins : List Plugin) (enabled : Bool) (st : St) : St :=
  analyseWholeProgram plugins enabled (perFilePass jobs st)

/-- The per-step relation every interior engine step satisfies: the
error list grows by a suffix whose RuleViolation count is exactly what
the per-call error tally gains and whose ConfigurationOverflow count is
exactly the tooManyConfigs flip; the configuration counter never
decreases; internalErrorFound is monotone; the cancellation flag and the
whole-program pass counter are untouched. -/
structure StepRel (st st' : St) : Prop where
  delta : ∃ d, st'.errorList = st.errorList ++ d
            ∧ st'.errorCount = st.errorCount + d.countP isViolation
            ∧ d.countP isOverflow + st.tooManyConfigs.toNat = st'.tooManyConfigs.toNat
  count_mono : st.configCount ≤ st'.configCount
  ief_mono : st.internalErrorFound = true → st'.internalErrorFound = true
  term_eq : st'.terminated = st.terminated
  wpr_eq : st'.wholeProgramRuns = st.wholeProgramRuns

/-- The empty engine state. -/
def st0 : St :=
  ⟨[], [], 0, false, false, 0, 0, 0, false, [], [], 0⟩

/-- A stub plugin emitting one RuleViolation per invocation. -/
def stubPlugin : Plugin where
  id := "stub"
  run := fun _ => .ok ["stub violation"]
  analyzeRun := fun _ => .ok []
  produceFileInfo := fun _ => none
  wholeProgramPass := fun _ => []

/-- Default settings for the concrete scenarios (ceiling 12, no
simplified pass, reducer off). -/
def stubSettings : Settings :=
  ⟨12, false, false, 0⟩

/-- A concrete context: the stub plugin, a file expanding to two
configurations with different texts, a tokenizer that always succeeds. -/
def ctxStub : Ctx where
  file := "a.h"
  plugins := [stubPlugin]
  expand := fun _ => [⟨"cfg1", true, "a"⟩, ⟨"cfg2", true, "b"⟩]
  tokenize := fun s => some [s]
  simplifyTokens := fun t => t
  rules := fun _ => []
  noteHeaders := fun _ => []
  settings := stubSettings

/-- A concrete context with ceiling 1 and three discoverable
configurations of pairwise different text. -/
def ctxCeil : Ctx where
  file := "b.h"
  plugins := [stubPlugin]
  expand := fun _ => [⟨"c1", true, "a"⟩, ⟨"c2", true, "b"⟩, ⟨"c3", true, "c"⟩]
  tokenize := fun s => some [s]
  simplifyTokens := fun t => t
  rules := fun _ => []
  noteHeaders := fun _ => []
  settings := ⟨1, false, false, 0⟩

/-- A state whose ceiling flag is already set. -/
def stTooMany : St :=
  { st0 with tooManyConfigs := true }

/-- A state in which cancellation has been requested. -/
def stTerm : St :=
  { st0 with terminated := true }

/-- A state in which an internal error was already caught. -/
def stIEF : St :=
  { st0 with internalErrorFound := true }

/-- A state that has already recorded the checksum of the text "a". -/
def stDup : St :=
  { st0 with checksums := [checksum "a"] }

/-- A concrete resolved configuration with expanded text "a". -/
def cfgA : Configuration :=
  ⟨"cfg1", true, "a"⟩

/-- A concrete reproduce check for the reducer scenarios: any non-empty
code still fails. -/
def reproW : String → Bool :=
  fun s => decide (0 < s.length)

theorem StepRel.refl (st : St) : StepRel st st :=
  ⟨⟨[], by simp, by simp, by simp⟩, Nat.le_refl _, id, rfl, rfl⟩

theorem StepRel.trans {a b c : St} (h1 : StepRel a b) (h2 : StepRel b c) : StepRel a c := by
  obtain ⟨⟨d1, e1, n1, o1⟩, m1, i1, t1, w1⟩ := h1
  obtain ⟨⟨d2, e2, n2, o2⟩, m2, i2, t2, w2⟩ := h2
  refine ⟨⟨d1 ++ d2, ?_, ?_, ?_⟩, Nat.le_trans m1 m2, fun h => i2 (i1 h), t2.trans t1, w2.trans w1⟩
  · rw [e2, e1, List.append_assoc]
  · rw [n2, n1, List.countP_append]; omega
  · rw [List.countP_append]; omega

theorem StepRel.foldl {α : Type} (f : St → α → St) (hf : ∀ st a, StepRel st (f st a)) :
    ∀ (l : List α) (st : St), StepRel st (l.foldl f st)
  | [], st => StepRel.refl st
  | a :: l, st => StepRel.trans (hf st a) (StepRel.foldl f hf l (f st a))

theorem StepRel.of_eq_fields (st st' : St)
    (h1 : st'.errorList = st.errorList) (h2 : st'.errorCount = st.errorCount)
    (h3 : st'.tooManyConfigs = st.tooManyConfigs) (h4 : st.configCount ≤ st'.configCount)
    (h5 : st.internalErrorFound = true → st'.internalErrorFound = true)
    (h6 : st'.terminated = st.terminated) (h7 : st'.wholeProgramRuns = st.wholeProgramRuns) :
    StepRel st st' :=
  ⟨⟨[], by simp [h1], by simp [h2], by simp [h3]⟩, h4, h5, h6, h7⟩

theorem stepRel_reportErr (st : St) (r : ErrorRecord)
    (hv : isViolation r = false) (ho : isOverflow r = false) :
    StepRel st (reportErr st r) := by
  refine ⟨⟨[r], rfl, ?_, ?_⟩, Nat.le_refl _, id, rfl, rfl⟩
  · simp [reportErr, List.countP_cons, hv]
  · simp [reportErr, List.countP_cons, ho]

theorem stepRel_emitViolation (st : St) (m : String) : StepRel st (emitViolation st m) := by
  refine ⟨⟨[⟨Severity.violation, m⟩], rfl, ?_, ?_⟩, Nat.le_refl _, id, rfl, rfl⟩
  · simp [emitViolation, List.countP_cons, isViolation]
  · simp [emitViolation, List.countP_cons, isOverflow]

theorem stepRel_emitViolations (st : St) (msgs : List String) :
    StepRel st (emitViolations st msgs) :=
  StepRel.foldl emitViolation stepRel_emitViolation msgs st

theorem stepRel_internalError (st : St) (f m : String) : StepRel st (internalError st f m) := by
  refine ⟨⟨[⟨Severity.internalErr, "Internal error: " ++ f ++ ": " ++ m⟩], rfl, ?_, ?_⟩,
    Nat.le_refl _, fun _ => rfl, rfl, rfl⟩
  · simp [internalError, reportErr, List.countP_cons, isViolation]
  · simp [internalError, reportErr, List.countP_cons, isOverflow]

theorem stepRel_runPluginIso (ctx : Ctx) (code : String) (toks : List String)
    (st : St) (p : Plugin) : StepRel st (runPluginIso ctx code toks st p) := by
  unfold runPluginIso
  split
  · exact StepRel.refl st
  · have hb : StepRel st { st with pluginInvocations := st.pluginInvocations + 1 } :=
      StepRel.of_eq_fields _ _ rfl rfl rfl (Nat.le_refl _) id rfl rfl
    split
    · exact hb.trans (stepRel_emitViolations _ _)
    · exact hb.trans (stepRel_internalError _ _ _)

theorem stepRel_runPluginIsoA (ctx : Ctx) (toks : List String)
    (st : St) (p : Plugin) : StepRel st (runPluginIsoA ctx toks st p) := by
  unfold runPluginIsoA
  split
  · exact StepRel.refl st
  · have hb : StepRel st { st with pluginInvocations := st.pluginInvocations + 1 } :=
      StepRel.of_eq_fields _ _ rfl rfl rfl (Nat.le_refl _) id rfl rfl
    split
    · exact hb.trans (stepRel_emitViolations _ _)
    · exact hb.trans (stepRel_internalError _ _ _)

theorem stepRel_executeRules (ctx : Ctx) (toks : List String) (st : St) :
    StepRel st (executeRules ctx toks st) :=
  stepRel_emitViolations st (ctx.rules toks)

theorem stepRel_tokenPass (ctx : Ctx) (code : String) (toks : List String) (st : St) :
    StepRel st (tokenPass ctx code toks st) :=
  StepRel.trans
    (StepRel.foldl _ (fun s p => stepRel_runPluginIso ctx code toks s p) ctx.plugins st)
    (stepRel_executeRules ctx toks _)

theorem stepRel_addFileInfos (ctx : Ctx) (st : St) : StepRel st (addFileInfos ctx st) :=
  StepRel.of_eq_fields _ _ rfl rfl rfl (Nat.le_refl _) id rfl rfl

theorem stepRel_checkFile (ctx : Ctx) (code : String) (st : St) :
    StepRel st (checkFile ctx code st).2 := by
  simp only [checkFile]
  split
  · exact StepRel.refl st
  · split
    · rename_i heq
      have h1 : StepRel st
          { st with
              checksums := checksum code :: st.checksums
              tokenizations := st.tokenizations + 1 } :=
        StepRel.of_eq_fields _ _ rfl rfl rfl (Nat.le_refl _) id rfl rfl
      exact h1.trans (stepRel_internalError _ _ _)
    · rename_i toks heq
      have h2 : StepRel st
          { st with
              checksums := checksum code :: st.checksums
              tokenizations := st.tokenizations + 1
              largeHeaderSet := insertHeaders st.largeHeaderSet (ctx.noteHeaders code) } :=
        StepRel.of_eq_fields _ _ rfl rfl rfl (Nat.le_refl _) id rfl rfl
      split
      · exact ((h2.trans (stepRel_tokenPass ctx code toks _)).trans
          (stepRel_tokenPass ctx code (ctx.simplifyTokens toks) _)).trans
          (stepRel_addFileInfos ctx _)
      · exact (h2.trans (stepRel_tokenPass ctx code toks _)).trans (stepRel_addFileInfos ctx _)

theorem stepRel_analyzeFile_internal (ctx : Ctx) (code : String) (st : St) :
    StepRel st (analyzeFile_internal ctx code st).2 := by
  simp only [analyzeFile_internal]
  split
  · exact StepRel.refl st
  · split
    · rename_i heq
      have h1 : StepRel st
          { st with
              checksums := checksum code :: st.checksums
              tokenizations := st.tokenizations + 1 } :=
        StepRel.of_eq_fields _ _ rfl rfl rfl (Nat.le_refl _) id rfl rfl
      exact h1.trans (stepRel_internalError _ _ _)
    · rename_i toks heq
      have h2 : StepRel st
          { st with
              checksums := checksum code :: st.checksums
              tokenizations := st.tokenizations + 1 } :=
        StepRel.of_eq_fields _ _ rfl rfl rfl (Nat.le_refl _) id rfl rfl
      exact h2.trans (StepRel.foldl _ (fun s p => stepRel_runPluginIsoA ctx toks s p) ctx.plugins _)

theorem stepRel_driveConfigWith (ctx : Ctx) (process : String → St → St)
    (hp : ∀ code st, StepRel st (process code st)) (st : St) (cfg : Configuration) :
    StepRel st (driveConfigWith ctx process st cfg) := by
  unfold driveConfigWith
  split
  · exact StepRel.refl st
  · split
    · exact StepRel.refl st
    · split
      · exact stepRel_reportErr st _ rfl rfl
      · split
        · exact StepRel.refl st
        · split
          · next hTM _ _ _ =>
            refine ⟨⟨[⟨Severity.overflow, "Too many #ifdef configurations in " ++ ctx.file ++ " (" ++ toString st.configCount ++ " checked)"⟩], rfl, ?_, ?_⟩,
              Nat.le_refl _, id, rfl, rfl⟩
            · simp [tooManyConfigsError, reportErr, List.countP_cons, isViolation]
            · simp only [Bool.not_eq_true] at hTM
              simp [tooManyConfigsError, reportErr, List.countP_cons, isOverflow, hTM]
          · exact StepRel.trans
              (StepRel.of_eq_fields st { st with configCount := st.configCount + 1 }
                rfl rfl rfl (Nat.le_succ _) id rfl rfl)
              (hp cfg.expandedText { st with configCount := st.configCount + 1 })

theorem stepRel_driveConfig (ctx : Ctx) (st : St) (cfg : Configuration) :
    StepRel st (driveConfig ctx st cfg) :=
  stepRel_driveConfigWith ctx _ (fun code s => stepRel_checkFile ctx code s) st cfg

theorem stepRel_driveConfigA (ctx : Ctx) (st : St) (cfg : Configuration) :
    StepRel st (driveConfigA ctx st cfg) :=
  stepRel_driveConfigWith ctx _ (fun code s => stepRel_analyzeFile_internal ctx code s) st cfg

theorem projCfg_foldl {α : Type} (f : St → α → St) (hf : ∀ st a, projCfg (f st a) = projCfg st) :
    ∀ (l : List α) (st : St), projCfg (l.foldl f st) = projCfg st
  | [], _ => rfl
  | a :: l, st => (projCfg_foldl f hf l (f st a)).trans (hf st a)

theorem projCfg_emitViolation (st : St) (m : String) : projCfg (emitViolation st m) = projCfg st :=
  rfl

theorem projCfg_emitViolations (st : St) (msgs : List String) :
    projCfg (emitViolations st msgs) = projCfg st :=
  projCfg_foldl emitViolation projCfg_emitViolation msgs st

theorem projCfg_internalError (st : St) (f m : String) :
    projCfg (internalError st f m) = projCfg st :=
  rfl

theorem projCfg_runPluginIso (ctx : Ctx) (code : String) (toks : List String)
    (st : St) (p : Plugin) : projCfg (runPluginIso ctx code toks st p) = projCfg st := by
  unfold runPluginIso
  split
  · rfl
  · split
    · exact projCfg_emitViolations _ _
    · exact projCfg_internalError _ _ _

theorem projCfg_runPluginIsoA (ctx : Ctx) (toks : List String)
    (st : St) (p : Plugin) : projCfg (runPluginIsoA ctx toks st p) = projCfg st := by
  unfold runPluginIsoA
  split
  · rfl
  · split
    · exact projCfg_emitViolations _ _
    · exact projCfg_internalError _ _ _

theorem projCfg_tokenPass (ctx : Ctx) (code : String) (toks : List String) (st : St) :
    projCfg (tokenPass ctx code toks st) = projCfg st := by
  unfold tokenPass executeRules
  exact (projCfg_emitViolations _ _).trans
    (projCfg_foldl _ (fun s p => projCfg_runPluginIso ctx code toks s p) ctx.plugins st)

theorem projCfg_checkFile (ctx : Ctx) (code : String) (st : St)
    (hmem : checksum code ∉ st.checksums) :
    projCfg (checkFile ctx code st).2 =
      ⟨checksum code :: st.checksums, st.configCount, st.tooManyConfigs, st.terminated⟩ := by
  simp only [checkFile]
  split
  · exact absurd (by assumption) hmem
  · split
    · rfl
    · rename_i toks heq
      split
      · exact (projCfg_tokenPass ctx code (ctx.simplifyTokens toks) _).trans
          (projCfg_tokenPass ctx code toks _)
      · exact projCfg_tokenPass ctx code toks _

theorem projCfg_analyzeFile_internal (ctx : Ctx) (code : String) (st : St)
    (hmem : checksum code ∉ st.checksums) :
    projCfg (analyzeFile_internal ctx code st).2 =
      ⟨checksum code :: st.checksums, st.configCount, st.tooManyConfigs, st.terminated⟩ := by
  simp only [analyzeFile_internal]
  split
  · exact absurd (by assumption) hmem
  · split
    · rfl
    · rename_i toks heq
      exact (projCfg_foldl _ (fun s p => projCfg_runPluginIsoA ctx toks s p) ctx.plugins _)

theorem projCfg_driveConfigWith (ctx : Ctx) (process : String → St → St)
    (hp : ∀ code st, checksum code ∉ st.checksums →
      projCfg (process code st) =
        ⟨checksum code :: st.checksums, st.configCount, st.tooManyConfigs, st.terminated⟩)
    (st : St) (cfg : Configuration) :
    projCfg (driveConfigWith ctx process st cfg) =
      driveProjStep ctx.settings.maxConfigs (projCfg st) cfg := by
  unfold driveConfigWith driveProjStep
  simp only [projCfg]
  split
  · rfl
  · split
    · rfl
    · split
      · rfl
      · split
        · rfl
        · split
          · rfl
          · rename_i hmem _
            exact hp cfg.expandedText { st with configCount := st.configCount + 1 } hmem

theorem projCfg_driveConfig (ctx : Ctx) (st : St) (cfg : Configuration) :
    projCfg (driveConfig ctx st cfg) = driveProjStep ctx.settings.maxConfigs (projCfg st) cfg :=
  projCfg_driveConfigWith ctx _ (fun code s h => projCfg_checkFile ctx code s h) st cfg

theorem projCfg_driveConfigA (ctx : Ctx) (st : St) (cfg : Configuration) :
    projCfg (driveConfigA ctx st cfg) = driveProjStep ctx.settings.maxConfigs (projCfg st) cfg :=
  projCfg_driveConfigWith ctx _ (fun code s h => projCfg_analyzeFile_internal ctx code s h) st cfg

theorem projCfg_foldl_driveConfig (ctx : Ctx) :
    ∀ (cfgs : List Configuration) (st : St),
      projCfg (cfgs.foldl (driveConfig ctx) st) =
        cfgs.foldl (driveProjStep ctx.settings.maxConfigs) (projCfg st)
  | [], _ => rfl
  | c :: l, st => by
      rw [List.foldl_cons, List.foldl_cons, projCfg_foldl_driveConfig ctx l,
        projCfg_driveConfig]

theorem projCfg_foldl_driveConfigA (ctx : Ctx) :
    ∀ (cfgs : List Configuration) (st : St),
      projCfg (cfgs.foldl (driveConfigA ctx) st) =
        cfgs.foldl (driveProjStep ctx.settings.maxConfigs) (projCfg st)
  | [], _ => rfl
  | c :: l, st => by
      rw [List.foldl_cons, List.foldl_cons, projCfg_foldl_driveConfigA ctx l,
        projCfg_driveConfigA]

theorem driveConfigWith_terminated (ctx : Ctx) (process : String → St → St)
    (st : St) (cfg : Configuration) (h : st.terminated = true) :
    driveConfigWith ctx process st cfg = st := by
  unfold driveConfigWith
  simp [h]

theorem foldl_driveConfig_terminated (ctx : Ctx) :
    ∀ (cfgs : List Configuration) (st : St), st.terminated = true →
      cfgs.foldl (driveConfig ctx) st = st
  | [], _, _ => rfl
  | c :: l, st, h => by
      rw [List.foldl_cons, driveConfig, driveConfigWith_terminated ctx _ st c h,
        foldl_driveConfig_terminated ctx l st h]

theorem foldl_driveConfigA_terminated (ctx : Ctx) :
    ∀ (cfgs : List Configuration) (st : St), st.terminated = true →
      cfgs.foldl (driveConfigA ctx) st = st
  | [], _, _ => rfl
  | c :: l, st, h => by
      rw [List.foldl_cons, driveConfigA, driveConfigWith_terminated ctx _ st c h,
        foldl_driveConfigA_terminated ctx l st h]

theorem reduceStep_spec {repro : String → Bool} {code c : String}
    (h : reduceStep repro code = some c) : repro c = true ∧ c.length < code.length := by
  have hfind := List.find?_some h
  have hand := Bool.and_eq_true_iff.mp hfind
  exact ⟨hand.2, of_decide_eq_true hand.1⟩

theorem reduce_safe (repro : String → Bool) :
    ∀ (budget : Nat) (code : String), repro code = true →
      repro (reduce budget repro code) = true ∧
      (reduce budget repro code).length ≤ code.length
  | 0, code, h => ⟨h, Nat.le_refl _⟩
  | b + 1, code, h => by
      rcases hs : reduceStep repro code with _ | c
      · simpa [reduce, hs] using And.intro h (Nat.le_refl code.length)
      · obtain ⟨h1, h2⟩ := reduceStep_spec hs
        have ih := reduce_safe repro b c h1
        simpa [reduce, hs] using And.intro ih.1 (Nat.le_trans ih.2 (Nat.le_of_lt h2))

theorem reduce_stuck (repro : String → Bool) (budget : Nat) (code : String)
    (h : reduceStep repro code = none) : reduce budget repro code = code := by
  cases budget with
  | zero => rfl
  | succ b => simp [reduce, h]

theorem errorList_foldl_reportErr :
    ∀ (msgs : List ErrorRecord) (st : St),
      (msgs.foldl reportErr st).errorList = st.errorList ++ msgs
  | [], st => by simp
  | r :: l, st => by
      rw [List.foldl_cons, errorList_foldl_reportErr l (reportErr st r)]
      simp [reportErr]

theorem checkFile_of_mem (ctx : Ctx) (code : String) (st : St)
    (h : checksum code ∈ st.checksums) : checkFile ctx code st = (false, st) := by
  simp [checkFile, h]

theorem checkFile_fst_of_not_mem (ctx : Ctx) (code : String) (st : St)
    (h : checksum code ∉ st.checksums) : (checkFile ctx code st).1 = true := by
  simp only [checkFile]
  rw [if_neg h]
  split <;> rfl

/-- C10: terminate() modifies only the shared cancellation flag inside
the settings: the error list, the FileInfo collection, the large-header
set, the checksum set, the configuration counter, the tooManyConfigs
flag, the internalErrorFound flag and the per-call error count are all
unchanged, so requesting cancellation never discards or alters
already-gathered diagnostics or whole-program artifacts. -/
theorem terminate_frame (st : St) :
    (terminate st).terminated = true ∧
    (terminate st).errorList = st.errorList ∧
    (terminate st).fileInfo = st.fileInfo ∧
    (terminate st).largeHeaderSet = st.largeHeaderSet ∧
    (terminate st).checksums = st.checksums ∧
    (terminate st).tooManyConfigs = st.tooManyConfigs ∧
    (terminate st).configCount = st.configCount ∧
    (terminate st).internalErrorFound = st.internalErrorFound ∧
    (terminate st).errorCount = st.errorCount ∧
    (terminate st).wholeProgramRuns = st.wholeProgramRuns :=
  ⟨rfl, rfl, rfl, rfl, rfl, rfl, rfl, rfl, rfl, rfl⟩

/-- C9: every ErrorRecord reported during a process lifetime is appended
to _errorList in emission order; the core never reorders and never
deduplicates that sequence; SyncErrorList drains exactly that sequence
in the same order; identical records may appear multiple times (their
multiplicities add). -/
theorem reportErr_order_contract (st : St) (msgs : List ErrorRecord) :
    (msgs.foldl reportErr st).errorList = st.errorList ++ msgs ∧
    (SyncErrorList (msgs.foldl reportErr st)).1 = st.errorList ++ msgs ∧
    (SyncErrorList (msgs.foldl reportErr st)).2.errorList = [] ∧
    ∀ r : ErrorRecord,
      ((msgs.foldl reportErr st).errorList).count r =
        (st.errorList).count r + msgs.count r := by
  have h := errorList_foldl_reportErr msgs st
  refine ⟨h, ?_, rfl, ?_⟩
  · simpa [SyncErrorList] using h
  · intro r
    rw [h, List.count_append]

/-- C7: for every input code on which the reproduce check holds, the
reducer returns code on which the reproduce check still holds (same
failure class) with size never larger than the input; when no scripted
reduction step applies, the original code is returned unmodified; the
same guarantees transfer to findError, whose shrink loop is reduce. -/
theorem reduce_safety_monotone :
    (∀ (repro : String → Bool) (budget : Nat) (code : String), repro code = true →
        repro (reduce budget repro code) = true ∧
        (reduce budget repro code).length ≤ code.length) ∧
    (∀ (repro : String → Bool) (budget : Nat) (code : String),
        reduceStep repro code = none → reduce budget repro code = code) ∧
    (∀ (ctx : Ctx) (p : Plugin) (code : String), pluginReproduces ctx p code = true →
        (findError ctx p code).1 = true ∧
        pluginReproduces ctx p (findError ctx p code).2 = true ∧
        (findError ctx p code).2.length ≤ code.length) := by
  refine ⟨fun repro budget code h => reduce_safe repro budget code h,
    fun repro budget code h => reduce_stuck repro budget code h, ?_⟩
  intro ctx p code h
  have hr := reduce_safe (pluginReproduces ctx p) ctx.settings.reduceSteps code h
  simp only [findError, h, if_true]
  exact ⟨trivial, hr.1, hr.2⟩

/-- Witness for C7 at a concrete reproduce check and input. -/
theorem reduce_safety_monotone_witness :
    reproW (reduce 3 reproW "abcd") = true ∧
    (reduce 3 reproW "abcd").length ≤ "abcd".length :=
  reduce_safety_monotone.1 reproW 3 "abcd" (by decide)

/-- C6: when cancellation has been requested, the Driver stops at the
next checkpoint: a Driver iteration, a plugin invocation and any
remaining Driver loop are all no-ops on a terminated state; composing a
terminate call after configuration k of a loop leaves the remaining
configurations unprocessed while the error list and the accumulated
error count are returned as they stood, and the terminate call itself
never emits an error record. -/
theorem cancellation_contract :
    (∀ (ctx : Ctx) (st : St) (cfg : Configuration), st.terminated = true →
        driveConfig ctx st cfg = st) ∧
    (∀ (ctx : Ctx) (code : String) (toks : List String) (st : St) (p : Plugin),
        st.terminated = true → runPluginIso ctx code toks st p = st) ∧
    (∀ (ctx : Ctx) (cfgs : List Configuration) (st : St), st.terminated = true →
        cfgs.foldl (driveConfig ctx) st = st) ∧
    (∀ (ctx : Ctx) (cfgs : List Configuration) (k : Nat) (st : St),
        (cfgs.drop k).foldl (driveConfig ctx)
            (terminate ((cfgs.take k).foldl (driveConfig ctx) st)) =
          terminate ((cfgs.take k).foldl (driveConfig ctx) st) ∧
        (terminate ((cfgs.take k).foldl (driveConfig ctx) st)).errorList =
          ((cfgs.take k).foldl (driveConfig ctx) st).errorList ∧
        (terminate ((cfgs.take k).foldl (driveConfig ctx) st)).errorCount =
          ((cfgs.take k).foldl (driveConfig ctx) st).errorCount) := by
  refine ⟨fun ctx st cfg h => driveConfigWith_terminated ctx _ st cfg h,
    ?_, fun ctx cfgs st h => foldl_driveConfig_terminated ctx cfgs st h, ?_⟩
  · intro ctx code toks st p h
    unfold runPluginIso
    simp [h]
  · intro ctx cfgs k st
    exact ⟨foldl_driveConfig_terminated ctx _ _ rfl, rfl, rfl⟩

/-- Witness for C6: a terminated state passes through a whole Driver
loop unchanged. -/
theorem cancellation_contract_witness :
    [cfgA].foldl (driveConfig ctxStub) stTerm = stTerm :=
  cancellation_contract.2.2.1 ctxStub [cfgA] stTerm rfl

/-- C5: within one AnalysisUnit, internalErrorFound is monotone: once
true it stays true through every sequence of subsequent configurations
(check or analyze driver) and through every further plugin invocation. -/
theorem internalErrorFound_monotone :
    (∀ (ctx : Ctx) (cfgs : List Configuration) (st : St), st.internalErrorFound = true →
        (cfgs.foldl (driveConfig ctx) st).internalErrorFound = true) ∧
    (∀ (ctx : Ctx) (cfgs : List Configuration) (st : St), st.internalErrorFound = true →
        (cfgs.foldl (driveConfigA ctx) st).internalErrorFound = true) ∧
    (∀ (ctx : Ctx) (code : String) (toks : List String) (st : St) (p : Plugin),
        st.internalErrorFound = true →
        (runPluginIso ctx code toks st p).internalErrorFound = true) :=
  ⟨fun ctx cfgs st h =>
      (StepRel.foldl _ (fun s c => stepRel_driveConfig ctx s c) cfgs st).ief_mono h,
    fun ctx cfgs st h =>
      (StepRel.foldl _ (fun s c => stepRel_driveConfigA ctx s c) cfgs st).ief_mono h,
    fun ctx code toks st p h =>
      (stepRel_runPluginIso ctx code toks st p).ief_mono h⟩

/-- Witness for C5: a unit that has already caught an internal error
still reports it after a further Driver iteration. -/
theorem internalErrorFound_monotone_witness :
    ([cfgA].foldl (driveConfig ctxStub) stIEF).internalErrorFound = true :=
  internalErrorFound_monotone.1 ctxStub [cfgA] stIEF rfl

/-- C1: checkFile called with a checksum already present in the unit's
checksum set performs no tokenization and no plugin invocation and
returns false with the state untouched; with a new checksum it records
it and returns true; immediately re-running checkFile on the same text
is then a no-op, so the plugin suite runs exactly once per distinct
expanded text. -/
theorem checkFile_dedup_contract (ctx : Ctx) (code : String) (st : St) :
    (checksum code ∈ st.checksums → checkFile ctx code st = (false, st)) ∧
    (checksum code ∉ st.checksums →
      (checkFile ctx code st).1 = true ∧
      (checkFile ctx code st).2.checksums = checksum code :: st.checksums ∧
      checkFile ctx code (checkFile ctx code st).2 =
        (false, (checkFile ctx code st).2)) := by
  refine ⟨fun h => checkFile_of_mem ctx code st h, fun h => ?_⟩
  have hcs : (checkFile ctx code st).2.checksums = checksum code :: st.checksums :=
    congrArg ProjSt.checksums (projCfg_checkFile ctx code st h)
  refine ⟨checkFile_fst_of_not_mem ctx code st h, hcs, ?_⟩
  apply checkFile_of_mem
  rw [hcs]
  exact List.mem_cons_self _ _

/-- Witness for C1: re-checking the text "a" in a state that already
recorded its checksum is a no-op returning false. -/
theorem checkFile_dedup_contract_witness :
    checkFile ctxStub "a" stDup = (false, stDup) :=
  (checkFile_dedup_contract ctxStub "a" stDup).1 (by decide)

theorem take_len_append {α : Type} (a b : List α) : (a ++ b).take a.length = a := by
  simp

theorem drop_len_append {α : Type} (a b : List α) : (a ++ b).drop a.length = b := by
  simp

theorem check_wpr (ctx : Ctx) (content : String) (st : St) :
    (check ctx content st).2.wholeProgramRuns = st.wholeProgramRuns :=
  (StepRel.foldl _ (fun s c => stepRel_driveConfig ctx s c)
    (ctx.expand content) (newUnit st)).wpr_eq

theorem check_errorList_append (ctx : Ctx) (content : String) (st : St) :
    ∃ d, (check ctx content st).2.errorList = st.errorList ++ d := by
  obtain ⟨d, he, -, -⟩ :=
    (StepRel.foldl _ (fun s c => stepRel_driveConfig ctx s c)
      (ctx.expand content) (newUnit st)).delta
  exact ⟨d, he⟩

theorem perFilePass_wpr :
    ∀ (jobs : List (Ctx × String)) (st : St),
      (perFilePass jobs st).wholeProgramRuns = st.wholeProgramRuns
  | [], _ => rfl
  | j :: l, st => by
      show (perFilePass l (check j.1 j.2 st).2).wholeProgramRuns = st.wholeProgramRuns
      rw [perFilePass_wpr l, check_wpr]

theorem perFilePass_append :
    ∀ (jobs : List (Ctx × String)) (st : St),
      ∃ d, (perFilePass jobs st).errorList = st.errorList ++ d
  | [], st => ⟨[], by simp [perFilePass]⟩
  | j :: l, st => by
      obtain ⟨d1, h1⟩ := check_errorList_append j.1 j.2 st
      obtain ⟨d2, h2⟩ := perFilePass_append l ((check j.1 j.2 st).2)
      refine ⟨d1 ++ d2, ?_⟩
      show (perFilePass l (check j.1 j.2 st).2).errorList = st.errorList ++ (d1 ++ d2)
      rw [h2, h1, List.append_assoc]

/-- C2: once tooManyConfigs is set a Driver iteration is a complete
no-op (nothing further is tokenized or checked and everything already
processed stays as it is); the configuration counter only increases; over
any Driver loop the number of ConfigurationOverflow diagnostics emitted
equals the tooManyConfigs flip (so it is at most one for the file, never
one per excess configuration); the flag is set exactly by the first
resolved, non-duplicate configuration processed at the ceiling; in a
concrete run with ceiling 1 and three discoverable configurations,
exactly one overflow diagnostic is emitted, exactly one configuration
reaches tokenization, and the flag ends set. -/
theorem ceiling_contract :
    (∀ (ctx : Ctx) (st : St) (cfg : Configuration), st.tooManyConfigs = true →
        driveConfig ctx st cfg = st) ∧
    (∀ (ctx : Ctx) (st : St) (cfg : Configuration),
        st.configCount ≤ (driveConfig ctx st cfg).configCount) ∧
    (∀ (ctx : Ctx) (cfgs : List Configuration) (st : St),
        ((cfgs.foldl (driveConfig ctx) st).errorList).countP isOverflow
            + st.tooManyConfigs.toNat =
          (st.errorList).countP isOverflow
            + ((cfgs.foldl (driveConfig ctx) st).tooManyConfigs).toNat) ∧
    (∀ (ctx : Ctx) (st : St) (cfg : Configuration), st.tooManyConfigs = false →
        ((driveConfig ctx st cfg).tooManyConfigs = true ↔
          (st.terminated = false ∧ cfg.resolved = true ∧
            checksum cfg.expandedText ∉ st.checksums ∧
            ctx.settings.maxConfigs ≤ st.configCount))) ∧
    ((check ctxCeil "content" st0).2.errorList.countP isOverflow = 1 ∧
      (check ctxCeil "content" st0).2.configCount = 1 ∧
      (check ctxCeil "content" st0).2.tokenizations = 1 ∧
      (check ctxCeil "content" st0).2.tooManyConfigs = true) := by
  refine ⟨?_, ?_, ?_, ?_, ?_⟩
  · intro ctx st cfg h
    unfold driveConfig driveConfigWith
    split
    · rfl
    · simp [h]
  · intro ctx st cfg
    exact (stepRel_driveConfig ctx st cfg).count_mono
  · intro ctx cfgs st
    obtain ⟨d, he, -, ho⟩ :=
      (StepRel.foldl _ (fun s c => stepRel_driveConfig ctx s c) cfgs st).delta
    rw [he, List.countP_append]
    omega
  · intro ctx st cfg h
    unfold driveConfig driveConfigWith
    split_ifs with h1 h2 h3 h4 h5
    · simp [h, h1]
    · exact absurd h2 (by simp [h])
    · have hr : cfg.resolved = false := by simpa using h3
      simp [purgedConfigurationMessage, reportErr, h, hr]
    · simp [h, h4]
    · have ht : st.terminated = false := by simpa using h1
      have hr : cfg.resolved = true := by simpa using h3
      simp [tooManyConfigsError, reportErr, ht, hr, h4, h5]
    · have htm : (checkFile ctx cfg.expandedText
          { st with configCount := st.configCount + 1 }).2.tooManyConfigs =
            st.tooManyConfigs :=
        congrArg ProjSt.tooManyConfigs
          (projCfg_checkFile ctx cfg.expandedText
            { st with configCount := st.configCount + 1 } h4)
      rw [htm, h]
      simp [h5]
  · exact ⟨by decide, by decide, by decide, by decide⟩

/-- Witness for C2: a Driver iteration on a unit whose ceiling flag is
set leaves the state untouched. -/
theorem ceiling_contract_witness :
    driveConfig ctxStub stTooMany cfgA = stTooMany :=
  ceiling_contract.1 ctxStub stTooMany cfgA rfl

/-- C3: check returns exactly the per-call error count: the previously
accumulated _errorList is preserved as a prefix and the returned count
equals the number of RuleViolation records appended during the call; in
the concrete two-configuration scenario with a stub plugin, check
returns 2 with 2 RuleViolation records in _errorList and 2 entries in
the checksum set. -/
theorem check_error_count_contract :
    (∀ (ctx : Ctx) (content : String) (st : St),
        (check ctx content st).2.errorList.take st.errorList.length = st.errorList ∧
        (check ctx content st).1 =
          ((check ctx content st).2.errorList.drop st.errorList.length).countP
            isViolation) ∧
    ((check ctxStub "content" st0).1 = 2 ∧
      (check ctxStub "content" st0).2.errorList.countP isViolation = 2 ∧
      (check ctxStub "content" st0).2.errorList.length = 2 ∧
      (check ctxStub "content" st0).2.checksums.length = 2) := by
  constructor
  · intro ctx content st
    obtain ⟨d, he, hc, -⟩ :=
      (StepRel.foldl _ (fun s c => stepRel_driveConfig ctx s c)
        (ctx.expand content) (newUnit st)).delta
    have he' : (check ctx content st).2.errorList = st.errorList ++ d := he
    have hc' : (check ctx content st).1 = 0 + d.countP isViolation := hc
    constructor
    · rw [he', take_len_append]
    · rw [he', drop_len_append, hc', Nat.zero_add]
  · exact ⟨by decide, by decide, by decide, by decide⟩

/-- C4: the analyze entry point follows the same configuration, dedup
and ceiling bookkeeping as check (their dedup/ceiling projections agree
for every input) but returns a status code that is 0 exactly when the
analysis succeeded (no internal error was caught), rather than a tally
of errors. -/
theorem analyze_status_contract (ctx : Ctx) (content : String) (st : St) :
    ((analyze ctx content st).1 = 0 ↔
      (analyze ctx content st).2.internalErrorFound = false) ∧
    projCfg (analyze ctx content st).2 = projCfg (check ctx content st).2 := by
  constructor
  · by_cases hb :
      ((ctx.expand content).foldl (driveConfigA ctx) (newUnit st)).internalErrorFound = true
    · simp [analyze, analyzeFile, hb]
    · simp [analyze, analyzeFile, hb]
  · exact (projCfg_foldl_driveConfigA ctx (ctx.expand content) (newUnit st)).trans
      (projCfg_foldl_driveConfig ctx (ctx.expand content) (newUnit st)).symm

/-- C8: across a batch of files the whole-program pass runs exactly once
regardless of the batch size (the per-file pass never fires it and the
batch increments the pass counter exactly once), it runs only after the
per-file Driver pass of every file (all per-file diagnostics form a
prefix of the final error list, the whole-program diagnostics a suffix),
and afterwards every accumulated FileInfo artifact is released
unconditionally. -/
theorem wholeProgram_single_fire (jobs : List (Ctx × String)) (plugins : List Plugin)
    (enabled : Bool) (st : St) :
    (runBatch jobs plugins enabled st).wholeProgramRuns = st.wholeProgramRuns + 1 ∧
    (perFilePass jobs st).wholeProgramRuns = st.wholeProgramRuns ∧
    (runBatch jobs plugins enabled st).fileInfo = [] ∧
    (∃ d, (runBatch jobs plugins enabled st).errorList =
      (perFilePass jobs st).errorList ++ d) ∧
    (∃ d0, (perFilePass jobs st).errorList = st.errorList ++ d0) := by
  refine ⟨?_, perFilePass_wpr jobs st, rfl, ⟨_, rfl⟩, perFilePass_append jobs st⟩
  show (analyseWholeProgram plugins enabled (perFilePass jobs st)).wholeProgramRuns =
    st.wholeProgramRuns + 1
  simp [analyseWholeProgram, perFilePass_wpr jobs st]
